import Mathlib

/-!
Shallow embedding of the color sampling and normalization core of the
`ha-scene-generator` repository (`src/app/src/App.tsx`).

JavaScript numbers are modelled by exact rationals (`ℚ`); `Math.round`
is `jsRound` (round half toward +∞, i.e. `⌊x + 1/2⌋`); `Math.floor`
is `Int.floor`.  The `Math.hypot` distance test is modelled by the
equivalent comparison of squared distances.  A decoded `ImageData`
buffer is modelled as a width, a height, and a total byte-lookup
function; a JS object used as a string-keyed record is modelled as a
`String → Option _` map.  `Math.random()` is modelled by an explicit
stream `rand : ℕ → ℚ` of draws consumed left to right.
-/

/-- JS `Math.round`: rounds half toward positive infinity. -/
def jsRound (x : ℚ) : ℤ := ⌊x + 1/2⌋

/-- Function `rgbToHsl` from App.tsx lines 48–64.  Inputs are channel values
(0–255 as used by callers); output is `(h, s, l)` with hue in degrees
and saturation/lightness as percentages. -/
def rgbToHsl (r g b : ℚ) : ℚ × ℚ × ℚ :=
  let r' := r / 255
  let g' := g / 255
  let b' := b / 255
  let mx := max r' (max g' b')
  let mn := min r' (min g' b')
  let l := (mx + mn) / 2
  if mx = mn then (0, 0, l * 100)
  else
    let d := mx - mn
    let s := if l > 1/2 then d / (2 - mx - mn) else d / (mx + mn)
    let h := if mx = r' then ((g' - b') / d + if g' < b' then (6 : ℚ) else 0) / 6
             else if mx = g' then ((b' - r') / d + 2) / 6
             else ((r' - g') / d + 4) / 6
    (h * 360, s * 100, l * 100)

/-- The sequential wrap applied to `t` at the top of the `hue2rgb`
helper in `hslToRgb` (App.tsx lines 74–76): `if (t < 0) t += 1;
if (t > 1) t -= 1`. -/
def wrapT (t : ℚ) : ℚ :=
  let t1 := if t < 0 then t + 1 else t
  if t1 > 1 then t1 - 1 else t1

/-- The branch body of the `hue2rgb` helper (App.tsx lines 77–80),
evaluated on the already-wrapped parameter. -/
def hue2rgbCore (p q t : ℚ) : ℚ :=
  if t < 1/6 then p + (q - p) * 6 * t
  else if t < 1/2 then q
  else if t < 2/3 then p + (q - p) * (2/3 - t) * 6
  else p

/-- The `hue2rgb` helper inside `hslToRgb` (App.tsx lines 74–81). -/
def hue2rgb (p q t : ℚ) : ℚ := hue2rgbCore p q (wrapT t)

/-- Function `hslToRgb` from App.tsx lines 67–89.  Takes hue in degrees and
saturation/lightness percentages, returns rounded integer channels. -/
def hslToRgb (h s l : ℚ) : ℤ × ℤ × ℤ :=
  let h' := h / 360
  let s' := s / 100
  let l' := l / 100
  if s' = 0 then (jsRound (l' * 255), jsRound (l' * 255), jsRound (l' * 255))
  else
    let q := if l' < 1/2 then l' * (1 + s') else l' + s' - l' * s'
    let p := 2 * l' - q
    (jsRound (hue2rgb p q (h' + 1/3) * 255),
     jsRound (hue2rgb p q h' * 255),
     jsRound (hue2rgb p q (h' - 1/3) * 255))

/-- Function `normalizeColor` from App.tsx lines 92–106: convert to HSL, boost
low saturation (`s < 40 ↦ min 100 (s·1.4 + 12)`), lift low lightness
(`l < 25 ↦ 25 + (l/25)·10`), convert back. -/
def normalizeColor (r g b : ℚ) : ℤ × ℤ × ℤ :=
  let hsl := rgbToHsl r g b
  let h := hsl.1
  let s := hsl.2.1
  let l := hsl.2.2
  let s2 := if s < 40 then min 100 (s * (7/5) + 12) else s
  let l2 := if l < 25 then 25 + (l / 25) * 10 else l
  hslToRgb h s2 l2

/-- Closed piecewise form of `hue2rgbCore p q (u/6)` for `u ∈ [0,6]`,
used only to organise the round-trip proof. -/
def pw (p q u : ℚ) : ℚ :=
  if u < 1 then p + (q - p) * u
  else if u < 3 then q
  else if u < 4 then p + (q - p) * (4 - u)
  else p

/-- A decoded raster buffer (browser `ImageData`): width, height and a
total lookup of the flat RGBA byte array (out-of-range indices exist in
the model just as JS indexing is total). -/
structure ImageData where
  width : ℕ
  height : ℕ
  data : ℤ → ℕ

/-- Index `px = Math.floor(x * data.width)` from `getColorAt` (App.tsx line 296). -/
def samplePx (d : ImageData) (x : ℚ) : ℤ := ⌊x * (d.width : ℚ)⌋

/-- Index `py = Math.floor(y * data.height)` from `getColorAt` (App.tsx line 297). -/
def samplePy (d : ImageData) (y : ℚ) : ℤ := ⌊y * (d.height : ℚ)⌋

/-- Byte index `idx = (py * data.width + px) * 4` from `getColorAt` (App.tsx line 298). -/
def sampleIdx (d : ImageData) (x y : ℚ) : ℤ :=
  (samplePy d y * (d.width : ℤ) + samplePx d x) * 4

/-- Function `getColorAt` from App.tsx lines 292–300: mid-gray fallback when no
buffer is loaded, otherwise the three RGB bytes at the computed index. -/
def getColorAt (buf : Option ImageData) (x y : ℚ) : ℕ × ℕ × ℕ :=
  match buf with
  | none => (128, 128, 128)
  | some d =>
    let idx := sampleIdx d x y
    (d.data idx, d.data (idx + 1), d.data (idx + 2))

/-- Constant `MIN_DOT_DISTANCE = 0.12` (App.tsx line 6). -/
def MIN_DOT_DISTANCE : ℚ := 12/100

/-- Constant `EDGE_PADDING = 0.08` (App.tsx line 7). -/
def EDGE_PADDING : ℚ := 8/100

/-- Constant `POSITION_RANGE = 1 - EDGE_PADDING * 2` (App.tsx line 8). -/
def POSITION_RANGE : ℚ := 1 - EDGE_PADDING * 2

/-- Constant `MAX_POSITION_ATTEMPTS = 50` (App.tsx line 9). -/
def MAX_POSITION_ATTEMPTS : ℕ := 50

/-- The `tooClose` test inside `getValidPosition` (App.tsx lines 315–317):
`positions.some(p => Math.hypot(p.x - x, p.y - y) < MIN_DOT_DISTANCE)`.
`Math.hypot` is modelled by comparing squared distances, which is
equivalent for nonnegative quantities. -/
def tooCloseCheck (positions : List (ℚ × ℚ)) (x y : ℚ) : Bool :=
  positions.any fun p =>
    decide ((p.1 - x) ^ 2 + (p.2 - y) ^ 2 < MIN_DOT_DISTANCE ^ 2)

/-- One candidate coordinate `EDGE_PADDING + Math.random() * POSITION_RANGE`
(App.tsx lines 313–314), reading the draw at stream index `i`. -/
def drawCoord (rand : ℕ → ℚ) (i : ℕ) : ℚ :=
  EDGE_PADDING + rand i * POSITION_RANGE

/-- The attempt loop of `getValidPosition` (App.tsx lines 312–320) with
`n` attempts remaining and the next unread stream index `i`; when the
loop exhausts, the fallback return at line 320 draws two further fresh
random values.  Returns the accepted position and the next unread
stream index. -/
def getValidPositionAux (rand : ℕ → ℚ) (positions : List (ℚ × ℚ)) :
    ℕ → ℕ → (ℚ × ℚ) × ℕ
  | 0, i => ((drawCoord rand i, drawCoord rand (i + 1)), i + 2)
  | n + 1, i =>
    let x := drawCoord rand i
    let y := drawCoord rand (i + 1)
    if tooCloseCheck positions x y then getValidPositionAux rand positions n (i + 2)
    else ((x, y), i + 2)

/-- Function `getValidPosition` from App.tsx lines 311–321, starting its draws at
stream index `i`. -/
def getValidPosition (rand : ℕ → ℚ) (positions : List (ℚ × ℚ)) (i : ℕ) :
    (ℚ × ℚ) × ℕ :=
  getValidPositionAux rand positions MAX_POSITION_ATTEMPTS i

/-- A color-capable light as held in component state (App.tsx lines 18–22). -/
structure Light where
  entity_id : String
  name : String
deriving DecidableEq

/-- A sample point (App.tsx lines 33–41). -/
structure SamplePoint where
  id : String
  x : ℚ
  y : ℚ
  r : ℕ
  g : ℕ
  b : ℕ
  lightName : String
deriving DecidableEq

/-- A status message as set by `setStatus` (the `key : Date.now()` field
is a UI animation key tied to the wall clock and is not modelled). -/
structure Status where
  msg : String
  stype : String
deriving DecidableEq

/-- The session state touched by the sampling core. -/
structure AppState where
  lights : List Light
  selectedLights : List String
  imageData : Option ImageData
  samples : List SamplePoint
  status : Option Status
  sceneName : String
  brightness : ℚ

/-- The `selected.map(light => ...)` body of `randomizeSamples`
(App.tsx lines 323–336): for each light, draw a valid position, push it
onto the accumulating `positions` list, sample the color there, and
build the `SamplePoint`; the random-stream index threads left to right. -/
def buildSamples (rand : ℕ → ℚ) (d : ImageData) :
    List Light → List (ℚ × ℚ) → ℕ → List SamplePoint
  | [], _, _ => []
  | light :: rest, positions, i =>
    let pr := getValidPosition rand positions i
    let c := getColorAt (some d) pr.1.1 pr.1.2
    { id := light.entity_id, x := pr.1.1, y := pr.1.2,
      r := c.1, g := c.2.1, b := c.2.2, lightName := light.name }
      :: buildSamples rand d rest (positions ++ [pr.1]) pr.2

/-- The error status set by `randomizeSamples` when its preconditions
fail (App.tsx line 305). -/
def randomizeErrStatus : Status :=
  { msg := "Select lights and upload an image first", stype := "error" }

/-- Function `randomizeSamples` from App.tsx lines 302–340 as a state
transition, with the `Math.random()` stream made explicit. -/
def randomizeSamples (rand : ℕ → ℚ) (st : AppState) : AppState :=
  let selected := st.lights.filter fun l => st.selectedLights.contains l.entity_id
  match st.imageData with
  | none => { st with status := some randomizeErrStatus }
  | some d =>
    if selected.length = 0 then { st with status := some randomizeErrStatus }
    else
      let newSamples := buildSamples rand d selected [] 0
      { st with
          samples := newSamples,
          status := some { msg := "Sampled " ++ toString newSamples.length ++ " colors",
                           stype := "success" } }

/-- One entry of the scene payload (App.tsx lines 406–410). -/
structure SceneEntity where
  state : String
  rgb_color : ℤ × ℤ × ℤ
  brightness : ℚ
deriving DecidableEq

/-- One loop iteration of `createScene` (App.tsx lines 414–421):
`entities[s.id] = { state: 'on', rgb_color: normalizeColor(s.r,s.g,s.b),
brightness }`, on the record modelled as a map. -/
def sceneStep (brightness : ℚ) (acc : String → Option SceneEntity)
    (s : SamplePoint) : String → Option SceneEntity :=
  fun k =>
    if k = s.id
    then some { state := "on",
                rgb_color := normalizeColor (s.r : ℚ) (s.g : ℚ) (s.b : ℚ),
                brightness := brightness }
    else acc k

/-- The `entities` record built by `createScene` (App.tsx lines 413–421):
the JS object keyed by `s.id` is modelled as a map `String → Option _`,
with later assignments to the same key overwriting earlier ones. -/
def createSceneEntities (samples : List SamplePoint) (brightness : ℚ) :
    String → Option SceneEntity :=
  samples.foldl (sceneStep brightness) (fun _ => none)

/-- A DOM bounding rectangle as returned by `getBoundingClientRect`. -/
structure Rect where
  left : ℚ
  top : ℚ
  width : ℚ
  height : ℚ

/-- Function `handleMouseMove` from App.tsx lines 346–357 as a function on the
sample list: no-op when nothing is dragged or no container exists;
otherwise clamp each axis to `[0,1]`, sample the color and update every
sample whose id matches the dragged id. -/
def handleMouseMove (dragging : Option String) (container : Option Rect)
    (clientX clientY : ℚ) (buf : Option ImageData)
    (samples : List SamplePoint) : List SamplePoint :=
  match dragging, container with
  | some dragId, some rect =>
    let x := max 0 (min 1 ((clientX - rect.left) / rect.width))
    let y := max 0 (min 1 ((clientY - rect.top) / rect.height))
    let c := getColorAt buf x y
    samples.map fun s =>
      if s.id = dragId
      then { s with x := x, y := y, r := c.1, g := c.2.1, b := c.2.2 }
      else s
  | _, _ => samples

/-- A 1×1 buffer of zero bytes, used to exhibit the boundary behaviour
of the pixel index computation. -/
def oneByOne : ImageData := { width := 1, height := 1, data := fun _ => 0 }

/-- A 2×2 buffer of constant bytes, used as a concrete loaded image. -/
def twoByTwo : ImageData := { width := 2, height := 2, data := fun _ => 7 }

/-- A concrete random stream: the first 100 draws are 0, all later
draws are 1/2. -/
def cexRand : ℕ → ℚ := fun i => if i < 100 then 0 else 1/2

/-- A concrete occupied-positions list holding the corner point
(0.08, 0.08), which every zero-draw candidate collides with. -/
def cexPositions : List (ℚ × ℚ) := [(2/25, 2/25)]

/-- A concrete light. -/
def demoLight : Light := { entity_id := "light.a", name := "Lamp A" }

/-- A concrete session state with a light selected but no image
loaded. -/
def demoStateNoImage : AppState :=
  { lights := [demoLight], selectedLights := ["light.a"], imageData := none,
    samples := [], status := none, sceneName := "Scene", brightness := 255 }

/-- A concrete session state with a light selected and an image
loaded. -/
def demoStateWithImage : AppState :=
  { lights := [demoLight], selectedLights := ["light.a"],
    imageData := some twoByTwo, samples := [], status := none,
    sceneName := "Scene", brightness := 255 }

/-- A concrete sample point with id `light.a`. -/
def demoPointA : SamplePoint :=
  { id := "light.a", x := 1/4, y := 1/4, r := 10, g := 20, b := 30,
    lightName := "Lamp A" }

/-- A concrete sample point with id `light.b`. -/
def demoPointB : SamplePoint :=
  { id := "light.b", x := 3/4, y := 3/4, r := 200, g := 100, b := 50,
    lightName := "Lamp B" }

/-! ### Helper lemmas for the HSL round trip -/

theorem wrapT_id {t : ℚ} (h0 : 0 ≤ t) (h1 : t ≤ 1) : wrapT t = t := by
  simp only [wrapT]
  rw [if_neg (not_lt.mpr h0), if_neg (not_lt.mpr h1)]

theorem wrapT_neg {t : ℚ} (h0 : -1 ≤ t) (h1 : t < 0) : wrapT t = t + 1 := by
  simp only [wrapT]
  rw [if_pos h1, if_neg (by linarith : ¬ (1 : ℚ) < t + 1)]

theorem wrapT_hi {t : ℚ} (h0 : 1 < t) (h1 : t ≤ 2) : wrapT t = t - 1 := by
  simp only [wrapT]
  rw [if_neg (by linarith : ¬ t < 0), if_pos h0]

theorem hue2rgbCore_eval (p q u : ℚ) (hu0 : 0 ≤ u) (hu6 : u ≤ 6) :
    hue2rgbCore p q (u / 6) = pw p q u := by
  simp only [hue2rgbCore, pw]
  by_cases h1 : u < 1
  · rw [if_pos (by linarith : u / 6 < 1/6), if_pos h1]; ring
  · push_neg at h1
    by_cases h3 : u < 3
    · rw [if_neg (by push_neg; linarith : ¬ u / 6 < 1/6),
        if_pos (by linarith : u / 6 < 1/2), if_neg (by push_neg; exact h1), if_pos h3]
    · push_neg at h3
      by_cases h4 : u < 4
      · rw [if_neg (by push_neg; linarith : ¬ u / 6 < 1/6),
          if_neg (by push_neg; linarith : ¬ u / 6 < 1/2),
          if_pos (by linarith : u / 6 < 2/3),
          if_neg (by push_neg; exact h1), if_neg (by push_neg; exact h3), if_pos h4]
        ring
      · push_neg at h4
        rw [if_neg (by push_neg; linarith : ¬ u / 6 < 1/6),
          if_neg (by push_neg; linarith : ¬ u / 6 < 1/2),
          if_neg (by push_neg; linarith : ¬ u / 6 < 2/3),
          if_neg (by push_neg; exact h1), if_neg (by push_neg; exact h3),
          if_neg (by push_neg; exact h4)]

theorem pw_b1 {p q u : ℚ} (h : u < 1) : pw p q u = p + (q - p) * u := by
  simp only [pw, if_pos h]

theorem pw_b2 {p q u : ℚ} (h1 : 1 ≤ u) (h2 : u < 3) : pw p q u = q := by
  simp only [pw, if_neg (not_lt.mpr h1), if_pos h2]

theorem pw_b3 {p q u : ℚ} (h1 : 3 ≤ u) (h2 : u < 4) :
    pw p q u = p + (q - p) * (4 - u) := by
  simp only [pw, if_neg (not_lt.mpr (by linarith : (1:ℚ) ≤ u)),
    if_neg (not_lt.mpr h1), if_pos h2]

theorem pw_b4 {p q u : ℚ} (h : 4 ≤ u) : pw p q u = p := by
  simp only [pw, if_neg (not_lt.mpr (by linarith : (1:ℚ) ≤ u)),
    if_neg (not_lt.mpr (by linarith : (3:ℚ) ≤ u)), if_neg (not_lt.mpr h)]

/-- In the chromatic case, the `q` computed by `hslToRgb` from the
saturation and lightness that `rgbToHsl` produced equals the maximum
channel, and the saturation is strictly positive. -/
theorem q_eq_max (mx mn s l : ℚ) (h0 : 0 ≤ mn) (hlt : mn < mx) (h1 : mx ≤ 1)
    (hl : l = (mx + mn) / 2)
    (hs : s = if l > 1/2 then (mx - mn) / (2 - mx - mn) else (mx - mn) / (mx + mn)) :
    0 < s ∧ (if l < 1/2 then l * (1 + s) else l + s - l * s) = mx := by
  have hmx0 : 0 < mx := lt_of_le_of_lt h0 hlt
  have hsum : 0 < mx + mn := by linarith
  have hsum2 : mx + mn < 2 := by linarith
  have hd : 0 < mx - mn := by linarith
  by_cases hgt : l > 1/2
  · have hden : (0:ℚ) < 2 - mx - mn := by linarith
    have hs' : s = (mx - mn) / (2 - mx - mn) := by rw [hs, if_pos hgt]
    refine ⟨hs' ▸ div_pos hd hden, ?_⟩
    rw [if_neg (by linarith : ¬ l < 1/2), hs', hl]
    field_simp
    ring
  · have hs' : s = (mx - mn) / (mx + mn) := by rw [hs, if_neg hgt]
    refine ⟨hs' ▸ div_pos hd hsum, ?_⟩
    by_cases hltl : l < 1/2
    · rw [if_pos hltl, hs', hl]
      field_simp
      ring
    · rw [if_neg hltl, hs', hl]
      have hone : mx + mn = 1 := by
        rw [hl] at hgt hltl
        push_neg at hgt hltl
        linarith
      rw [hone]
      field_simp [hone]
      linarith

set_option maxHeartbeats 1600000 in
/-- Chromatic core of the round trip: in the non-achromatic case, the
three `hue2rgb` evaluations of `hslToRgb` at the hue computed by
`rgbToHsl` recover the three (normalized) channels exactly, with
`p = min` and `q = max`. -/
theorem hue_channels (r g b M N D H : ℚ)
    (hr1 : r ≤ 1) (hg1 : g ≤ 1) (hb1 : b ≤ 1)
    (hM : M = max r (max g b)) (hN : N = min r (min g b))
    (hD : D = M - N) (hne : M ≠ N)
    (hH : H = if M = r then ((g - b) / D + if g < b then (6 : ℚ) else 0) / 6
          else if M = g then ((b - r) / D + 2) / 6
          else ((r - g) / D + 4) / 6) :
    hue2rgb N M (H + 1/3) = r ∧ hue2rgb N M H = g ∧ hue2rgb N M (H - 1/3) = b := by
  have hrM : r ≤ M := by rw [hM]; exact le_max_left _ _
  have hgM : g ≤ M := by rw [hM]; exact le_trans (le_max_left _ _) (le_max_right _ _)
  have hbM : b ≤ M := by rw [hM]; exact le_trans (le_max_right _ _) (le_max_right _ _)
  have hNr : N ≤ r := by rw [hN]; exact min_le_left _ _
  have hNg : N ≤ g := by rw [hN]; exact le_trans (min_le_right _ _) (min_le_left _ _)
  have hNb : N ≤ b := by rw [hN]; exact le_trans (min_le_right _ _) (min_le_right _ _)
  have hNM : N < M := lt_of_le_of_ne (hNr.trans hrM) (Ne.symm hne)
  have hD0 : 0 < D := by rw [hD]; linarith
  have hDne : D ≠ 0 := ne_of_gt hD0
  by_cases hMr : M = r
  · by_cases hgb : g < b
    · -- max = r, g < b : min = g, hue sextant [5,6)
      have hgr : g ≤ r := hMr ▸ hgM
      have hNg' : N = g := by
        rw [hN, min_eq_left hgb.le, min_eq_right hgr]
      have hDval : D = r - g := by rw [hD, hMr, hNg']
      have hbr : b ≤ r := hMr ▸ hbM
      have hH' : H = ((g - b) / D + 6) / 6 := by rw [hH, if_pos hMr, if_pos hgb]
      have hq1 : -1 ≤ (g - b) / D := by
        rw [le_div_iff hD0, hDval]; linarith
      have hq2 : (g - b) / D < 0 := div_neg_of_neg_of_pos (by linarith) hD0
      set u := (g - b) / D + 6 with hu
      have hu5 : 5 ≤ u := by rw [hu]; linarith
      have hu6 : u < 6 := by rw [hu]; linarith
      refine ⟨?_, ?_, ?_⟩
      · rw [show H + 1/3 = (u + 2) / 6 by rw [hH']; ring]
        simp only [hue2rgb]
        rw [wrapT_hi (by linarith) (by linarith),
          show (u + 2) / 6 - 1 = (u - 4) / 6 by ring,
          hue2rgbCore_eval _ _ _ (by linarith) (by linarith),
          pw_b2 (by linarith) (by linarith), hMr]
      · rw [show H = u / 6 from hH']
        simp only [hue2rgb]
        rw [wrapT_id (by linarith) (by linarith),
          hue2rgbCore_eval _ _ _ (by linarith) (by linarith),
          pw_b4 (by linarith), hNg']
      · rw [show H - 1/3 = (u - 2) / 6 by rw [hH']; ring]
        simp only [hue2rgb]
        rw [wrapT_id (by linarith) (by linarith),
          hue2rgbCore_eval _ _ _ (by linarith) (by linarith),
          pw_b3 (by linarith) (by linarith), ← hD, hNg', hu]
        field_simp
        ring
    · -- max = r, g ≥ b : min = b, hue sextant [0,1]
      have hbg : b ≤ g := le_of_not_lt hgb
      have hgr : g ≤ r := hMr ▸ hgM
      have hbr : b ≤ r := hMr ▸ hbM
      have hNb' : N = b := by
        rw [hN, min_eq_right hbg, min_eq_right hbr]
      have hDval : D = r - b := by rw [hD, hMr, hNb']
      have hH' : H = ((g - b) / D + 0) / 6 := by rw [hH, if_pos hMr, if_neg hgb]
      set u := (g - b) / D with hu
      have hH2 : H = u / 6 := by rw [hH']; ring
      have hu0 : 0 ≤ u := by
        rw [hu]; exact div_nonneg (by linarith) hD0.le
      have hu1 : u ≤ 1 := by
        rw [hu, div_le_one hD0, hDval]; linarith
      refine ⟨?_, ?_, ?_⟩
      · rw [show H + 1/3 = (u + 2) / 6 by rw [hH2]; ring]
        simp only [hue2rgb]
        rw [wrapT_id (by linarith) (by linarith),
          hue2rgbCore_eval _ _ _ (by linarith) (by linarith)]
        by_cases hu1' : u < 1
        · rw [pw_b2 (by linarith) (by linarith), hMr]
        · have hu1e : u = 1 := le_antisymm hu1 (not_lt.mp hu1')
          rw [pw_b3 (by linarith) (by linarith), hu1e, ← hMr]
          ring
      · rw [show H = u / 6 from hH2]
        simp only [hue2rgb]
        rw [wrapT_id (by linarith) (by linarith),
          hue2rgbCore_eval _ _ _ (by linarith) (by linarith)]
        by_cases hu1' : u < 1
        · rw [pw_b1 hu1', ← hD, hNb', hu]
          field_simp
        · have hu1e : u = 1 := le_antisymm hu1 (not_lt.mp hu1')
          have hgr' : g = r := by
            have h1 : g - b = D := by
              rw [hu] at hu1e
              exact (div_eq_one_iff_eq hDne).mp hu1e
            rw [hDval] at h1; linarith
          rw [pw_b2 (by linarith) (by linarith), hMr, hgr']
      · rw [show H - 1/3 = (u - 2) / 6 by rw [hH2]; ring]
        simp only [hue2rgb]
        rw [wrapT_neg (by linarith) (by linarith),
          show (u - 2) / 6 + 1 = (u + 4) / 6 by ring,
          hue2rgbCore_eval _ _ _ (by linarith) (by linarith),
          pw_b4 (by linarith), hNb']
  · by_cases hMg : M = g
    · -- max = g
      have hrM' : r < M := lt_of_le_of_ne hrM (fun h => hMr h.symm)
      have hbg : b ≤ g := hMg ▸ hbM
      have hrg : r < g := by rw [← hMg]; exact hrM'
      have hN2 : N = min r b := by rw [hN, min_eq_right hbg]
      have hH' : H = ((b - r) / D + 2) / 6 := by rw [hH, if_neg hMr, if_pos hMg]
      by_cases hbr : b < r
      · -- min = b, hue sextant (1,2)
        have hNb' : N = b := by rw [hN2, min_eq_right hbr.le]
        have hDval : D = g - b := by rw [hD, hMg, hNb']
        have hq1 : -1 < (b - r) / D := by
          rw [lt_div_iff hD0, hDval]; linarith
        have hq2 : (b - r) / D < 0 := div_neg_of_neg_of_pos (by linarith) hD0
        set u := (b - r) / D + 2 with hu
        have hu1 : 1 < u := by rw [hu]; linarith
        have hu2 : u < 2 := by rw [hu]; linarith
        refine ⟨?_, ?_, ?_⟩
        · rw [show H + 1/3 = (u + 2) / 6 by rw [hH']; ring]
          simp only [hue2rgb]
          rw [wrapT_id (by linarith) (by linarith),
            hue2rgbCore_eval _ _ _ (by linarith) (by linarith),
            pw_b3 (by linarith) (by linarith), ← hD, hNb', hu]
          field_simp
          ring
        · rw [show H = u / 6 from hH']
          simp only [hue2rgb]
          rw [wrapT_id (by linarith) (by linarith),
            hue2rgbCore_eval _ _ _ (by linarith) (by linarith),
            pw_b2 (by linarith) (by linarith), hMg]
        · rw [show H - 1/3 = (u - 2) / 6 by rw [hH']; ring]
          simp only [hue2rgb]
          rw [wrapT_neg (by linarith) (by linarith),
            show (u - 2) / 6 + 1 = (u + 4) / 6 by ring,
            hue2rgbCore_eval _ _ _ (by linarith) (by linarith),
            pw_b4 (by linarith), hNb']
      · -- min = r, hue sextant [2,3]
        have hrb : r ≤ b := le_of_not_lt hbr
        have hNr' : N = r := by rw [hN2, min_eq_left hrb]
        have hDval : D = g - r := by rw [hD, hMg, hNr']
        have hq1 : 0 ≤ (b - r) / D := div_nonneg (by linarith) hD0.le
        have hq2 : (b - r) / D ≤ 1 := by
          rw [div_le_one hD0, hDval]; linarith
        set u := (b - r) / D + 2 with hu
        have hu2 : 2 ≤ u := by rw [hu]; linarith
        have hu3 : u ≤ 3 := by rw [hu]; linarith
        refine ⟨?_, ?_, ?_⟩
        · rw [show H + 1/3 = (u + 2) / 6 by rw [hH']; ring]
          simp only [hue2rgb]
          rw [wrapT_id (by linarith) (by linarith),
            hue2rgbCore_eval _ _ _ (by linarith) (by linarith),
            pw_b4 (by linarith), hNr']
        · rw [show H = u / 6 from hH']
          simp only [hue2rgb]
          rw [wrapT_id (by linarith) (by linarith),
            hue2rgbCore_eval _ _ _ (by linarith) (by linarith)]
          by_cases hu3' : u < 3
          · rw [pw_b2 (by linarith) hu3', hMg]
          · have hu3e : u = 3 := le_antisymm hu3 (not_lt.mp hu3')
            rw [pw_b3 (by linarith) (by linarith), hu3e, ← hMg]
            ring
        · rw [show H - 1/3 = (u - 2) / 6 by rw [hH']; ring]
          simp only [hue2rgb]
          rw [wrapT_id (by linarith) (by linarith),
            hue2rgbCore_eval _ _ _ (by linarith) (by linarith)]
          by_cases hub : u - 2 < 1
          · rw [pw_b1 hub, ← hD, hNr', hu]
            field_simp
            ring
          · have hu3e : u = 3 := by
              have := not_lt.mp hub; linarith
            have hbg' : b = g := by
              have h1 : b - r = D := by
                have : (b - r) / D = 1 := by rw [hu] at hu3e; linarith
                exact (div_eq_one_iff_eq hDne).mp this
              rw [hDval] at h1; linarith
            rw [pw_b2 (by linarith) (by linarith), hMg, hbg']
    · -- max = b
      have hrM' : r < M := lt_of_le_of_ne hrM (fun h => hMr h.symm)
      have hgM' : g < M := lt_of_le_of_ne hgM (fun h => hMg h.symm)
      have hMb : M = b := by
        have h1 : M = max g b := by
          rcases max_choice r (max g b) with h | h
          · exact absurd (hM.trans h) hMr
          · exact hM.trans h
        rcases max_choice g b with h2 | h2
        · exact absurd (h1.trans h2) hMg
        · exact h1.trans h2
      have hrb : r < b := by rw [← hMb]; exact hrM'
      have hgb : g < b := by rw [← hMb]; exact hgM'
      have hN2 : N = min r g := by rw [hN, min_eq_left hgb.le]
      have hH' : H = ((r - g) / D + 4) / 6 := by rw [hH, if_neg hMr, if_neg hMg]
      by_cases hgr : g < r
      · -- min = g, hue sextant (4,5)
        have hNg' : N = g := by rw [hN2, min_eq_right hgr.le]
        have hDval : D = b - g := by rw [hD, hMb, hNg']
        have hq1 : 0 < (r - g) / D := div_pos (by linarith) hD0
        have hq2 : (r - g) / D < 1 := by
          rw [div_lt_one hD0, hDval]; linarith
        set u := (r - g) / D + 4 with hu
        have hu4 : 4 < u := by rw [hu]; linarith
        have hu5 : u < 5 := by rw [hu]; linarith
        refine ⟨?_, ?_, ?_⟩
        · rw [show H + 1/3 = (u + 2) / 6 by rw [hH']; ring]
          simp only [hue2rgb]
          rw [wrapT_hi (by linarith) (by linarith),
            show (u + 2) / 6 - 1 = (u - 4) / 6 by ring,
            hue2rgbCore_eval _ _ _ (by linarith) (by linarith),
            pw_b1 (by linarith), ← hD, hNg', hu]
          field_simp
          ring
        · rw [show H = u / 6 from hH']
          simp only [hue2rgb]
          rw [wrapT_id (by linarith) (by linarith),
            hue2rgbCore_eval _ _ _ (by linarith) (by linarith),
            pw_b4 (by linarith), hNg']
        · rw [show H - 1/3 = (u - 2) / 6 by rw [hH']; ring]
          simp only [hue2rgb]
          rw [wrapT_id (by linarith) (by linarith),
            hue2rgbCore_eval _ _ _ (by linarith) (by linarith),
            pw_b2 (by linarith) (by linarith), hMb]
      · -- min = r, hue sextant (3,4]
        have hrg : r ≤ g := le_of_not_lt hgr
        have hNr' : N = r := by rw [hN2, min_eq_left hrg]
        have hDval : D = b - r := by rw [hD, hMb, hNr']
        have hq1 : -1 < (r - g) / D := by
          rw [lt_div_iff hD0, hDval]; linarith
        have hq2 : (r - g) / D ≤ 0 :=
          div_nonpos_of_nonpos_of_nonneg (by linarith) hD0.le
        set u := (r - g) / D + 4 with hu
        have hu3 : 3 < u := by rw [hu]; linarith
        have hu4 : u ≤ 4 := by rw [hu]; linarith
        refine ⟨?_, ?_, ?_⟩
        · rw [show H + 1/3 = (u + 2) / 6 by rw [hH']; ring]
          simp only [hue2rgb]
          rw [wrapT_id (by linarith) (by linarith),
            hue2rgbCore_eval _ _ _ (by linarith) (by linarith),
            pw_b4 (by linarith), hNr']
        · rw [show H = u / 6 from hH']
          simp only [hue2rgb]
          rw [wrapT_id (by linarith) (by linarith),
            hue2rgbCore_eval _ _ _ (by linarith) (by linarith)]
          by_cases hu4' : u < 4
          · rw [pw_b3 (by linarith) hu4', ← hD, hNr', hu]
            field_simp
          · have hu4e : u = 4 := le_antisymm hu4 (not_lt.mp hu4')
            have hrg' : r = g := by
              have h1 : (r - g) / D = 0 := by rw [hu] at hu4e; linarith
              have h2 : r - g = 0 := by
                rcases (div_eq_zero_iff.mp h1) with h | h
                · exact h
                · exact absurd h hDne
              linarith
            rw [pw_b4 (by linarith), hNr', hrg']
        · rw [show H - 1/3 = (u - 2) / 6 by rw [hH']; ring]
          simp only [hue2rgb]
          have hx1 : (0 : ℚ) ≤ u - 2 := by linarith
          have hx2 : u - 2 ≤ (6 : ℚ) := by linarith
          rw [wrapT_id (by linarith) (by linarith)]
          rw [hue2rgbCore_eval N M (u - 2) hx1 hx2]
          rw [pw_b2 (by linarith) (by linarith), hMb]

theorem jsRound_natCast (n : ℕ) : jsRound ((n : ℕ) : ℚ) = (n : ℤ) := by
  simp only [jsRound]
  rw [Int.floor_eq_iff]
  constructor
  · push_cast; linarith
  · push_cast; linarith

theorem hslToRgb_achromatic (Ll : ℚ) :
    hslToRgb 0 0 (Ll * 100) =
      (jsRound (Ll * 255), jsRound (Ll * 255), jsRound (Ll * 255)) := by
  simp only [hslToRgb]
  rw [show (0 : ℚ) / 100 = 0 by norm_num, if_pos rfl,
    show Ll * 100 / 100 * 255 = Ll * 255 by ring]

theorem hslToRgb_chromatic (Hh Ss Ll mx mn : ℚ)
    (h0 : 0 ≤ mn) (hlt : mn < mx) (h1 : mx ≤ 1)
    (hLl : Ll = (mx + mn) / 2)
    (hSs : Ss = if Ll > 1/2 then (mx - mn) / (2 - mx - mn) else (mx - mn) / (mx + mn)) :
    hslToRgb (Hh * 360) (Ss * 100) (Ll * 100)
      = (jsRound (hue2rgb (2 * Ll - mx) mx (Hh + 1/3) * 255),
         jsRound (hue2rgb (2 * Ll - mx) mx Hh * 255),
         jsRound (hue2rgb (2 * Ll - mx) mx (Hh - 1/3) * 255)) := by
  obtain ⟨hS0, hq⟩ := q_eq_max mx mn Ss Ll h0 hlt h1 hLl hSs
  simp only [hslToRgb]
  rw [show Ss * 100 / 100 = Ss by ring, show Ll * 100 / 100 = Ll by ring,
    show Hh * 360 / 360 = Hh by ring]
  rw [if_neg (ne_of_gt hS0), hq]

/-- The HSL round trip is exactly the identity on integer RGB inputs. -/
theorem roundtrip_exact (r g b : ℕ) (hr : r ≤ 255) (hg : g ≤ 255) (hb : b ≤ 255) :
    hslToRgb (rgbToHsl (r : ℚ) (g : ℚ) (b : ℚ)).1
        (rgbToHsl (r : ℚ) (g : ℚ) (b : ℚ)).2.1
        (rgbToHsl (r : ℚ) (g : ℚ) (b : ℚ)).2.2
      = ((r : ℤ), (g : ℤ), (b : ℤ)) := by
  have hrQ : ((r : ℕ) : ℚ) ≤ 255 := by exact_mod_cast hr
  have hgQ : ((g : ℕ) : ℚ) ≤ 255 := by exact_mod_cast hg
  have hbQ : ((b : ℕ) : ℚ) ≤ 255 := by exact_mod_cast hb
  have hr1 : ((r : ℕ) : ℚ) / 255 ≤ 1 := (div_le_one (by norm_num)).mpr hrQ
  have hg1 : ((g : ℕ) : ℚ) / 255 ≤ 1 := (div_le_one (by norm_num)).mpr hgQ
  have hb1 : ((b : ℕ) : ℚ) / 255 ≤ 1 := (div_le_one (by norm_num)).mpr hbQ
  have hr0 : (0 : ℚ) ≤ ((r : ℕ) : ℚ) / 255 := by positivity
  have hg0 : (0 : ℚ) ≤ ((g : ℕ) : ℚ) / 255 := by positivity
  have hb0 : (0 : ℚ) ≤ ((b : ℕ) : ℚ) / 255 := by positivity
  simp only [rgbToHsl]
  set mx := max ((r : ℚ) / 255) (max ((g : ℚ) / 255) ((b : ℚ) / 255)) with hmx
  set mn := min ((r : ℚ) / 255) (min ((g : ℚ) / 255) ((b : ℚ) / 255)) with hmn
  by_cases hc : mx = mn
  · have hA1 : (r : ℚ) / 255 ≤ mn := by rw [← hc, hmx]; exact le_max_left _ _
    have hA2 : mn ≤ (r : ℚ) / 255 := by rw [hmn]; exact min_le_left _ _
    have hA : (r : ℚ) / 255 = mn := le_antisymm hA1 hA2
    have hB1 : (g : ℚ) / 255 ≤ mn := by
      rw [← hc, hmx]; exact le_trans (le_max_left _ _) (le_max_right _ _)
    have hB2 : mn ≤ (g : ℚ) / 255 := by
      rw [hmn]; exact le_trans (min_le_right _ _) (min_le_left _ _)
    have hB : (g : ℚ) / 255 = mn := le_antisymm hB1 hB2
    have hC1 : (b : ℚ) / 255 ≤ mn := by
      rw [← hc, hmx]; exact le_trans (le_max_right _ _) (le_max_right _ _)
    have hC2 : mn ≤ (b : ℚ) / 255 := by
      rw [hmn]; exact le_trans (min_le_right _ _) (min_le_right _ _)
    have hC : (b : ℚ) / 255 = mn := le_antisymm hC1 hC2
    rw [if_pos hc]
    show hslToRgb 0 0 ((mx + mn) / 2 * 100) = ((r : ℤ), (g : ℤ), (b : ℤ))
    rw [hslToRgb_achromatic]
    simp only [Prod.mk.injEq]
    refine ⟨?_, ?_, ?_⟩
    · rw [show (mx + mn) / 2 * 255 = ((r : ℕ) : ℚ) by rw [hc, ← hA]; ring,
        jsRound_natCast]
    · rw [show (mx + mn) / 2 * 255 = ((g : ℕ) : ℚ) by rw [hc, ← hB]; ring,
        jsRound_natCast]
    · rw [show (mx + mn) / 2 * 255 = ((b : ℕ) : ℚ) by rw [hc, ← hC]; ring,
        jsRound_natCast]
  · have hmn0 : 0 ≤ mn := by
      rw [hmn]; exact le_min hr0 (le_min hg0 hb0)
    have hmnmx : mn ≤ mx := by
      rw [hmx, hmn]; exact le_trans (min_le_left _ _) (le_max_left _ _)
    have hlt : mn < mx := lt_of_le_of_ne hmnmx (fun h => hc h.symm)
    have hmx1 : mx ≤ 1 := by rw [hmx]; exact max_le hr1 (max_le hg1 hb1)
    rw [if_neg hc]
    simp only []
    rw [hslToRgb_chromatic _ _ _ mx mn hmn0 hlt hmx1 rfl rfl]
    obtain ⟨e1, e2, e3⟩ :=
      hue_channels ((r : ℚ) / 255) ((g : ℚ) / 255) ((b : ℚ) / 255) mx mn (mx - mn)
        (if mx = (r : ℚ) / 255
         then (((g : ℚ) / 255 - (b : ℚ) / 255) / (mx - mn)
           + if (g : ℚ) / 255 < (b : ℚ) / 255 then (6 : ℚ) else 0) / 6
         else if mx = (g : ℚ) / 255
           then (((b : ℚ) / 255 - (r : ℚ) / 255) / (mx - mn) + 2) / 6
           else (((r : ℚ) / 255 - (g : ℚ) / 255) / (mx - mn) + 4) / 6)
        hr1 hg1 hb1 hmx hmn rfl hc rfl
    rw [show 2 * ((mx + mn) / 2) - mx = mn by ring]
    rw [e1, e2, e3,
      show ((r : ℚ) / 255) * 255 = ((r : ℕ) : ℚ) by ring,
      show ((g : ℚ) / 255) * 255 = ((g : ℕ) : ℚ) by ring,
      show ((b : ℚ) / 255) * 255 = ((b : ℕ) : ℚ) by ring,
      jsRound_natCast, jsRound_natCast, jsRound_natCast]

/-- C1: For all integer RGB triples (r,g,b) in [0,255]³,
`hslToRgb (rgbToHsl (r,g,b))` returns a triple that equals (r,g,b)
within ±1 per channel (the round trip is in fact exact). -/
theorem c1_roundtrip_within_one (r g b : ℕ)
    (hr : r ≤ 255) (hg : g ≤ 255) (hb : b ≤ 255) :
    |(hslToRgb (rgbToHsl (r : ℚ) (g : ℚ) (b : ℚ)).1
        (rgbToHsl (r : ℚ) (g : ℚ) (b : ℚ)).2.1
        (rgbToHsl (r : ℚ) (g : ℚ) (b : ℚ)).2.2).1 - (r : ℤ)| ≤ 1 ∧
    |(hslToRgb (rgbToHsl (r : ℚ) (g : ℚ) (b : ℚ)).1
        (rgbToHsl (r : ℚ) (g : ℚ) (b : ℚ)).2.1
        (rgbToHsl (r : ℚ) (g : ℚ) (b : ℚ)).2.2).2.1 - (g : ℤ)| ≤ 1 ∧
    |(hslToRgb (rgbToHsl (r : ℚ) (g : ℚ) (b : ℚ)).1
        (rgbToHsl (r : ℚ) (g : ℚ) (b : ℚ)).2.1
        (rgbToHsl (r : ℚ) (g : ℚ) (b : ℚ)).2.2).2.2 - (b : ℤ)| ≤ 1 := by
  rw [roundtrip_exact r g b hr hg hb]
  norm_num

/-- Witness for C1 at the concrete triple (12, 200, 55). -/
theorem c1_roundtrip_within_one_witness :
    (12 : ℕ) ≤ 255 ∧ (200 : ℕ) ≤ 255 ∧ (55 : ℕ) ≤ 255 ∧
    (|(hslToRgb (rgbToHsl ((12 : ℕ) : ℚ) ((200 : ℕ) : ℚ) ((55 : ℕ) : ℚ)).1
        (rgbToHsl ((12 : ℕ) : ℚ) ((200 : ℕ) : ℚ) ((55 : ℕ) : ℚ)).2.1
        (rgbToHsl ((12 : ℕ) : ℚ) ((200 : ℕ) : ℚ) ((55 : ℕ) : ℚ)).2.2).1
          - ((12 : ℕ) : ℤ)| ≤ 1 ∧
     |(hslToRgb (rgbToHsl ((12 : ℕ) : ℚ) ((200 : ℕ) : ℚ) ((55 : ℕ) : ℚ)).1
        (rgbToHsl ((12 : ℕ) : ℚ) ((200 : ℕ) : ℚ) ((55 : ℕ) : ℚ)).2.1
        (rgbToHsl ((12 : ℕ) : ℚ) ((200 : ℕ) : ℚ) ((55 : ℕ) : ℚ)).2.2).2.1
          - ((200 : ℕ) : ℤ)| ≤ 1 ∧
     |(hslToRgb (rgbToHsl ((12 : ℕ) : ℚ) ((200 : ℕ) : ℚ) ((55 : ℕ) : ℚ)).1
        (rgbToHsl ((12 : ℕ) : ℚ) ((200 : ℕ) : ℚ) ((55 : ℕ) : ℚ)).2.1
        (rgbToHsl ((12 : ℕ) : ℚ) ((200 : ℕ) : ℚ) ((55 : ℕ) : ℚ)).2.2).2.2
          - ((55 : ℕ) : ℤ)| ≤ 1) :=
  ⟨by norm_num, by norm_num, by norm_num,
    c1_roundtrip_within_one 12 200 55 (by norm_num) (by norm_num) (by norm_num)⟩

/-- C9: For every coordinate, sampling with no raster buffer loaded
returns the neutral mid-gray triple (128,128,128); in particular at
(0.5, 0.5). -/
theorem c9_sampler_fallback :
    (∀ x y : ℚ, getColorAt none x y = (128, 128, 128)) ∧
    getColorAt none (1/2) (1/2) = (128, 128, 128) :=
  ⟨fun _ _ => rfl, rfl⟩

/-- C10: the function `normalizeColor` preserves hue: its result is `hslToRgb`
applied to the unchanged hue component of `rgbToHsl` together with some
adjusted saturation and lightness. -/
theorem c10_hue_preserved (r g b : ℚ) :
    ∃ s' l' : ℚ,
      normalizeColor r g b = hslToRgb (rgbToHsl r g b).1 s' l' :=
  ⟨_, _, rfl⟩

theorem rgbToHsl_l_eq (r g b : ℚ) :
    (rgbToHsl r g b).2.2 =
      (max (r/255) (max (g/255) (b/255)) + min (r/255) (min (g/255) (b/255)))
        / 2 * 100 := by
  simp only [rgbToHsl]
  by_cases hc : max (r/255) (max (g/255) (b/255)) = min (r/255) (min (g/255) (b/255))
  · rw [if_pos hc]
  · rw [if_neg hc]

theorem rgbToHsl_l_nonneg (r g b : ℚ) (hr0 : 0 ≤ r) (hg0 : 0 ≤ g) (hb0 : 0 ≤ b) :
    0 ≤ (rgbToHsl r g b).2.2 := by
  rw [rgbToHsl_l_eq]
  have h1 : 0 ≤ max (r/255) (max (g/255) (b/255)) :=
    le_trans (by positivity) (le_max_left _ _)
  have h2 : 0 ≤ min (r/255) (min (g/255) (b/255)) :=
    le_min (by positivity) (le_min (by positivity) (by positivity))
  linarith

/-- C6: the function `normalizeColor` remaps any input with HSL lightness `l < 25` to
lightness `25 + (l/25)·10 ∈ [25,35]`, tested against the original
(pre-boost) `l`; and `normalizeColor 10 5 5` has lightness ≥ 25. -/
theorem c6_lightness_lift :
    (∀ r g b : ℚ, 0 ≤ r → r ≤ 255 → 0 ≤ g → g ≤ 255 → 0 ≤ b → b ≤ 255 →
      (rgbToHsl r g b).2.2 < 25 →
      25 ≤ 25 + ((rgbToHsl r g b).2.2 / 25) * 10 ∧
      25 + ((rgbToHsl r g b).2.2 / 25) * 10 ≤ 35 ∧
      normalizeColor r g b =
        hslToRgb (rgbToHsl r g b).1
          (if (rgbToHsl r g b).2.1 < 40
           then min 100 ((rgbToHsl r g b).2.1 * (7/5) + 12)
           else (rgbToHsl r g b).2.1)
          (25 + ((rgbToHsl r g b).2.2 / 25) * 10)) ∧
    25 ≤ (rgbToHsl ((normalizeColor 10 5 5).1 : ℚ)
            ((normalizeColor 10 5 5).2.1 : ℚ)
            ((normalizeColor 10 5 5).2.2 : ℚ)).2.2 := by
  constructor
  · intro r g b hr0 hr1 hg0 hg1 hb0 hb1 hl
    have hl0 : 0 ≤ (rgbToHsl r g b).2.2 := rgbToHsl_l_nonneg r g b hr0 hg0 hb0
    refine ⟨by linarith, by linarith, ?_⟩
    simp only [normalizeColor]
    rw [if_pos hl]
  · norm_num [normalizeColor, rgbToHsl, hslToRgb, hue2rgb, hue2rgbCore, wrapT, jsRound]

/-- Witness for C6 at the concrete input (10, 5, 5). -/
theorem c6_lightness_lift_witness :
    (rgbToHsl (10 : ℚ) 5 5).2.2 < 25 ∧
    (25 ≤ 25 + ((rgbToHsl (10 : ℚ) 5 5).2.2 / 25) * 10 ∧
     25 + ((rgbToHsl (10 : ℚ) 5 5).2.2 / 25) * 10 ≤ 35 ∧
     normalizeColor 10 5 5 =
       hslToRgb (rgbToHsl (10 : ℚ) 5 5).1
         (if (rgbToHsl (10 : ℚ) 5 5).2.1 < 40
          then min 100 ((rgbToHsl (10 : ℚ) 5 5).2.1 * (7/5) + 12)
          else (rgbToHsl (10 : ℚ) 5 5).2.1)
         (25 + ((rgbToHsl (10 : ℚ) 5 5).2.2 / 25) * 10)) :=
  ⟨by norm_num [rgbToHsl],
   c6_lightness_lift.1 10 5 5 (by norm_num) (by norm_num) (by norm_num)
     (by norm_num) (by norm_num) (by norm_num) (by norm_num [rgbToHsl])⟩

/-- C2 (amended): for a loaded buffer with positive dimensions and a
coordinate with 0 ≤ x < 1 and 0 ≤ y < 1, the sampler's indices
`px = ⌊x·width⌋`, `py = ⌊y·height⌋` lie inside the raster and the byte
index `(py·width + px)·4` reads (three channels) inside the RGBA
buffer of length `4·width·height`.  (At x = 1 or y = 1, which the
caller's clamp can produce, the index is out of bounds; see the
counterexample.) -/
theorem c2_sampler_in_bounds (d : ImageData) (x y : ℚ)
    (hw : 0 < d.width) (hh : 0 < d.height)
    (hx0 : 0 ≤ x) (hx1 : x < 1) (hy0 : 0 ≤ y) (hy1 : y < 1) :
    0 ≤ samplePx d x ∧ samplePx d x < (d.width : ℤ) ∧
    0 ≤ samplePy d y ∧ samplePy d y < (d.height : ℤ) ∧
    0 ≤ sampleIdx d x y ∧
    sampleIdx d x y + 2 < 4 * (d.width : ℤ) * (d.height : ℤ) := by
  have hwQ : (0 : ℚ) < (d.width : ℚ) := by exact_mod_cast hw
  have hhQ : (0 : ℚ) < (d.height : ℚ) := by exact_mod_cast hh
  have hpx0 : 0 ≤ samplePx d x := by
    simp only [samplePx]
    exact Int.floor_nonneg.mpr (mul_nonneg hx0 hwQ.le)
  have hpx1 : samplePx d x < (d.width : ℤ) := by
    simp only [samplePx]
    rw [Int.floor_lt]
    push_cast
    nlinarith
  have hpy0 : 0 ≤ samplePy d y := by
    simp only [samplePy]
    exact Int.floor_nonneg.mpr (mul_nonneg hy0 hhQ.le)
  have hpy1 : samplePy d y < (d.height : ℤ) := by
    simp only [samplePy]
    rw [Int.floor_lt]
    push_cast
    nlinarith
  have hw0 : (0 : ℤ) ≤ (d.width : ℤ) := by exact_mod_cast hw.le
  have key : 0 ≤ ((d.height : ℤ) - 1 - samplePy d y) * (d.width : ℤ) :=
    mul_nonneg (by linarith) hw0
  refine ⟨hpx0, hpx1, hpy0, hpy1, ?_, ?_⟩
  · simp only [sampleIdx]
    have h1 : 0 ≤ samplePy d y * (d.width : ℤ) := mul_nonneg hpy0 hw0
    linarith
  · simp only [sampleIdx]
    linarith

/-- C2 counterexample: on a loaded 1×1 buffer at the clamped coordinate
(1, 0) — which the caller's clamp to [0,1] can produce — the computed
`px` equals the width, so the pixel read is out of the buffer's
bounds. -/
theorem c2_counterexample :
    0 < oneByOne.width ∧ 0 < oneByOne.height ∧
    ((0 : ℚ) ≤ 1 ∧ (1 : ℚ) ≤ 1) ∧
    samplePx oneByOne 1 = (oneByOne.width : ℤ) ∧
    ¬ samplePx oneByOne 1 < (oneByOne.width : ℤ) ∧
    ¬ sampleIdx oneByOne 1 0 + 2 <
        4 * (oneByOne.width : ℤ) * (oneByOne.height : ℤ) := by
  refine ⟨one_pos, one_pos, ⟨by norm_num, le_refl _⟩, ?_, ?_, ?_⟩
  · norm_num [samplePx, oneByOne]
  · norm_num [samplePx, oneByOne]
  · norm_num [sampleIdx, samplePx, samplePy, oneByOne]

/-- Witness for C2 (amended) on a 2×2 buffer at (1/2, 1/2). -/
theorem c2_sampler_in_bounds_witness :
    (0 < twoByTwo.width ∧ 0 < twoByTwo.height ∧
     (0 : ℚ) ≤ 1/2 ∧ (1/2 : ℚ) < 1) ∧
    (0 ≤ samplePx twoByTwo (1/2) ∧ samplePx twoByTwo (1/2) < (twoByTwo.width : ℤ) ∧
     0 ≤ samplePy twoByTwo (1/2) ∧ samplePy twoByTwo (1/2) < (twoByTwo.height : ℤ) ∧
     0 ≤ sampleIdx twoByTwo (1/2) (1/2) ∧
     sampleIdx twoByTwo (1/2) (1/2) + 2 <
       4 * (twoByTwo.width : ℤ) * (twoByTwo.height : ℤ)) :=
  ⟨⟨by norm_num [twoByTwo], by norm_num [twoByTwo], by norm_num, by norm_num⟩,
   c2_sampler_in_bounds twoByTwo (1/2) (1/2)
     (by norm_num [twoByTwo]) (by norm_num [twoByTwo])
     (by norm_num) (by norm_num) (by norm_num) (by norm_num)⟩

theorem getValidPositionAux_exhaust (rand : ℕ → ℚ) (positions : List (ℚ × ℚ)) :
    ∀ (n i : ℕ),
      (∀ k, k < n →
        tooCloseCheck positions (drawCoord rand (i + 2*k))
          (drawCoord rand (i + 2*k + 1)) = true) →
      getValidPositionAux rand positions n i
        = ((drawCoord rand (i + 2*n), drawCoord rand (i + 2*n + 1)), i + 2*n + 2) := by
  intro n
  induction n with
  | zero =>
    intro i _
    simp [getValidPositionAux]
  | succ n ih =>
    intro i h
    have h0 : tooCloseCheck positions (drawCoord rand i) (drawCoord rand (i + 1)) = true := by
      have := h 0 (Nat.succ_pos n)
      simpa using this
    simp only [getValidPositionAux]
    rw [if_pos h0]
    have h' : ∀ k, k < n →
        tooCloseCheck positions (drawCoord rand ((i + 2) + 2*k))
          (drawCoord rand ((i + 2) + 2*k + 1)) = true := by
      intro k hk
      have hx := h (k + 1) (by omega)
      have e : i + 2*(k + 1) = (i + 2) + 2*k := by omega
      rw [e] at hx
      exact hx
    rw [ih (i + 2) h']
    have e1 : (i + 2) + 2*n = i + 2*(n + 1) := by omega
    rw [e1]

/-- C3 (corrected): when every one of the 50 bounded attempts fails the
minimum-distance test, `getValidPosition` accepts a fresh 51st
candidate built from two further random draws (stream indices
`i+100` and `i+101`), not the final candidate of the bounded
attempts. -/
theorem c3_exhaustion_fresh_draw (rand : ℕ → ℚ) (positions : List (ℚ × ℚ)) (i : ℕ)
    (hfail : ∀ k, k < MAX_POSITION_ATTEMPTS →
      tooCloseCheck positions (drawCoord rand (i + 2*k))
        (drawCoord rand (i + 2*k + 1)) = true) :
    getValidPosition rand positions i
      = ((drawCoord rand (i + 2*MAX_POSITION_ATTEMPTS),
          drawCoord rand (i + 2*MAX_POSITION_ATTEMPTS + 1)),
         i + 2*MAX_POSITION_ATTEMPTS + 2) :=
  getValidPositionAux_exhaust rand positions MAX_POSITION_ATTEMPTS i hfail

/-- C3 counterexample: with the stream `cexRand` (first 100 draws 0,
later draws 1/2) and the occupied corner `cexPositions`, every bounded
attempt fails; the accepted position is (1/2, 1/2), built from the
fresh draws at stream indices 100 and 101 (the returned next index is
102 = 2·50 + 2), while the final candidate drawn during the bounded
attempts (stream indices 98 and 99) was (2/25, 2/25). -/
theorem c3_counterexample :
    (getValidPosition cexRand cexPositions 0).1 = (1/2, 1/2) ∧
    (getValidPosition cexRand cexPositions 0).2 = 102 ∧
    (drawCoord cexRand 98, drawCoord cexRand 99) = (2/25, 2/25) ∧
    (getValidPosition cexRand cexPositions 0).1
      ≠ (drawCoord cexRand 98, drawCoord cexRand 99) := by
  refine ⟨?_, ?_, ?_, ?_⟩ <;>
    norm_num [getValidPosition, getValidPositionAux, MAX_POSITION_ATTEMPTS,
      tooCloseCheck, drawCoord, EDGE_PADDING, POSITION_RANGE, MIN_DOT_DISTANCE,
      cexRand, cexPositions]

/-- Witness for C3 (corrected) at the concrete stream `cexRand` and the
occupied list `cexPositions`. -/
theorem c3_exhaustion_fresh_draw_witness :
    (∀ k, k < MAX_POSITION_ATTEMPTS →
      tooCloseCheck cexPositions (drawCoord cexRand (0 + 2*k))
        (drawCoord cexRand (0 + 2*k + 1)) = true) ∧
    getValidPosition cexRand cexPositions 0
      = ((drawCoord cexRand (0 + 2*MAX_POSITION_ATTEMPTS),
          drawCoord cexRand (0 + 2*MAX_POSITION_ATTEMPTS + 1)),
         0 + 2*MAX_POSITION_ATTEMPTS + 2) := by
  have hfail : ∀ k, k < MAX_POSITION_ATTEMPTS →
      tooCloseCheck cexPositions (drawCoord cexRand (0 + 2*k))
        (drawCoord cexRand (0 + 2*k + 1)) = true := by
    intro k hk
    simp only [MAX_POSITION_ATTEMPTS] at hk
    have e1 : cexRand (0 + 2*k) = 0 := by
      simp only [cexRand]
      rw [if_pos (by omega)]
    have e2 : cexRand (0 + 2*k + 1) = 0 := by
      simp only [cexRand]
      rw [if_pos (by omega)]
    simp only [drawCoord, e1, e2]
    norm_num [tooCloseCheck, cexPositions, EDGE_PADDING, POSITION_RANGE,
      MIN_DOT_DISTANCE]
  exact ⟨hfail, c3_exhaustion_fresh_draw cexRand cexPositions 0 hfail⟩

/-- C4: when the selected-light list is empty or no raster buffer is
loaded, `randomizeSamples` sets the user-facing error status and leaves
the sample set and all other session state unchanged (being a total
function, it cannot throw). -/
theorem c4_randomize_precondition (rand : ℕ → ℚ) (st : AppState)
    (h : (st.lights.filter fun l => st.selectedLights.contains l.entity_id) = []
         ∨ st.imageData = none) :
    (randomizeSamples rand st).samples = st.samples ∧
    (randomizeSamples rand st).lights = st.lights ∧
    (randomizeSamples rand st).selectedLights = st.selectedLights ∧
    (randomizeSamples rand st).imageData = st.imageData ∧
    (randomizeSamples rand st).sceneName = st.sceneName ∧
    (randomizeSamples rand st).brightness = st.brightness ∧
    (randomizeSamples rand st).status = some randomizeErrStatus := by
  rcases h with h | h
  · cases himg : st.imageData with
    | none => simp [randomizeSamples, himg]
    | some d =>
      simp only [randomizeSamples, himg]
      rw [h]
      simp
  · simp [randomizeSamples, h]

/-- Witness for C4 at a concrete state with no image loaded. -/
theorem c4_randomize_precondition_witness :
    demoStateNoImage.imageData = none ∧
    ((randomizeSamples (fun _ => 0) demoStateNoImage).samples
        = demoStateNoImage.samples ∧
     (randomizeSamples (fun _ => 0) demoStateNoImage).lights
        = demoStateNoImage.lights ∧
     (randomizeSamples (fun _ => 0) demoStateNoImage).selectedLights
        = demoStateNoImage.selectedLights ∧
     (randomizeSamples (fun _ => 0) demoStateNoImage).imageData
        = demoStateNoImage.imageData ∧
     (randomizeSamples (fun _ => 0) demoStateNoImage).sceneName
        = demoStateNoImage.sceneName ∧
     (randomizeSamples (fun _ => 0) demoStateNoImage).brightness
        = demoStateNoImage.brightness ∧
     (randomizeSamples (fun _ => 0) demoStateNoImage).status
        = some randomizeErrStatus) :=
  ⟨rfl, c4_randomize_precondition (fun _ => 0) demoStateNoImage (Or.inr rfl)⟩

theorem drawCoord_bounds (rand : ℕ → ℚ) (hr : ∀ i, 0 ≤ rand i ∧ rand i < 1)
    (i : ℕ) :
    EDGE_PADDING ≤ drawCoord rand i ∧ drawCoord rand i ≤ 1 - EDGE_PADDING := by
  obtain ⟨h0, h1⟩ := hr i
  simp only [drawCoord, EDGE_PADDING, POSITION_RANGE]
  constructor <;> nlinarith

theorem getValidPositionAux_bounds (rand : ℕ → ℚ)
    (hr : ∀ i, 0 ≤ rand i ∧ rand i < 1) (positions : List (ℚ × ℚ)) :
    ∀ (n i : ℕ),
      EDGE_PADDING ≤ (getValidPositionAux rand positions n i).1.1 ∧
      (getValidPositionAux rand positions n i).1.1 ≤ 1 - EDGE_PADDING ∧
      EDGE_PADDING ≤ (getValidPositionAux rand positions n i).1.2 ∧
      (getValidPositionAux rand positions n i).1.2 ≤ 1 - EDGE_PADDING := by
  intro n
  induction n with
  | zero =>
    intro i
    simp only [getValidPositionAux]
    exact ⟨(drawCoord_bounds rand hr i).1, (drawCoord_bounds rand hr i).2,
      (drawCoord_bounds rand hr (i + 1)).1, (drawCoord_bounds rand hr (i + 1)).2⟩
  | succ n ih =>
    intro i
    simp only [getValidPositionAux]
    by_cases hc : tooCloseCheck positions (drawCoord rand i) (drawCoord rand (i + 1)) = true
    · rw [if_pos hc]
      exact ih (i + 2)
    · rw [if_neg hc]
      exact ⟨(drawCoord_bounds rand hr i).1, (drawCoord_bounds rand hr i).2,
        (drawCoord_bounds rand hr (i + 1)).1, (drawCoord_bounds rand hr (i + 1)).2⟩

theorem buildSamples_spec (rand : ℕ → ℚ) (hr : ∀ i, 0 ≤ rand i ∧ rand i < 1)
    (d : ImageData) :
    ∀ (ls : List Light) (positions : List (ℚ × ℚ)) (i : ℕ),
      ((buildSamples rand d ls positions i).map fun s => s.id)
          = (ls.map fun l => l.entity_id) ∧
      ((buildSamples rand d ls positions i).map fun s => s.lightName)
          = (ls.map fun l => l.name) ∧
      ∀ s ∈ buildSamples rand d ls positions i,
        EDGE_PADDING ≤ s.x ∧ s.x ≤ 1 - EDGE_PADDING ∧
        EDGE_PADDING ≤ s.y ∧ s.y ≤ 1 - EDGE_PADDING ∧
        (s.r, s.g, s.b) = getColorAt (some d) s.x s.y := by
  intro ls
  induction ls with
  | nil =>
    intro positions i
    refine ⟨rfl, rfl, ?_⟩
    intro s hs
    simp [buildSamples] at hs
  | cons light rest ih =>
    intro positions i
    obtain ⟨ih1, ih2, ih3⟩ :=
      ih (positions ++ [(getValidPosition rand positions i).1])
        (getValidPosition rand positions i).2
    refine ⟨?_, ?_, ?_⟩
    · simp only [buildSamples, List.map_cons]
      rw [ih1]
    · simp only [buildSamples, List.map_cons]
      rw [ih2]
    · intro s hs
      simp only [buildSamples] at hs
      rcases List.mem_cons.mp hs with hs | hs
      · subst hs
        refine ⟨?_, ?_, ?_, ?_, rfl⟩
        · exact (getValidPositionAux_bounds rand hr positions MAX_POSITION_ATTEMPTS i).1
        · exact (getValidPositionAux_bounds rand hr positions MAX_POSITION_ATTEMPTS i).2.1
        · exact (getValidPositionAux_bounds rand hr positions MAX_POSITION_ATTEMPTS i).2.2.1
        · exact (getValidPositionAux_bounds rand hr positions MAX_POSITION_ATTEMPTS i).2.2.2
      · exact ih3 s hs

/-- C5: on success (some light selected and a buffer loaded, with the
random draws in [0,1) as `Math.random` guarantees), `randomizeSamples`
replaces the whole sample set with exactly one point per selected
light, in light order; every point's coordinate lies within
[0.08, 0.92]² and its raw color is the pixel sampler's value at that
coordinate; the new set does not depend on the previous samples (no
partial update of the old set is visible). -/
theorem c5_randomize_success (rand : ℕ → ℚ) (st : AppState) (d : ImageData)
    (hr : ∀ i, 0 ≤ rand i ∧ rand i < 1)
    (himg : st.imageData = some d)
    (hsel : (st.lights.filter fun l => st.selectedLights.contains l.entity_id) ≠ []) :
    (randomizeSamples rand st).samples.length
        = (st.lights.filter fun l => st.selectedLights.contains l.entity_id).length ∧
    ((randomizeSamples rand st).samples.map fun s => s.id)
        = ((st.lights.filter fun l => st.selectedLights.contains l.entity_id).map
            fun l => l.entity_id) ∧
    ((randomizeSamples rand st).samples.map fun s => s.lightName)
        = ((st.lights.filter fun l => st.selectedLights.contains l.entity_id).map
            fun l => l.name) ∧
    (∀ s ∈ (randomizeSamples rand st).samples,
      (2/25 : ℚ) ≤ s.x ∧ s.x ≤ 23/25 ∧ (2/25 : ℚ) ≤ s.y ∧ s.y ≤ 23/25 ∧
      (s.r, s.g, s.b) = getColorAt (some d) s.x s.y) ∧
    (∀ st2 : AppState, st2.lights = st.lights →
      st2.selectedLights = st.selectedLights → st2.imageData = st.imageData →
      (randomizeSamples rand st2).samples = (randomizeSamples rand st).samples) := by
  have hlen : ¬ (st.lights.filter fun l => st.selectedLights.contains l.entity_id).length = 0 :=
    fun hlen => hsel (List.length_eq_zero.mp hlen)
  have hsamples : (randomizeSamples rand st).samples
      = buildSamples rand d
          (st.lights.filter fun l => st.selectedLights.contains l.entity_id) [] 0 := by
    simp only [randomizeSamples, himg]
    rw [if_neg hlen]
  obtain ⟨h1, h2, h3⟩ := buildSamples_spec rand hr d
    (st.lights.filter fun l => st.selectedLights.contains l.entity_id) [] 0
  refine ⟨?_, ?_, ?_, ?_, ?_⟩
  · rw [hsamples]
    have := congrArg List.length h1
    simpa using this
  · rw [hsamples]; exact h1
  · rw [hsamples]; exact h2
  · intro s hs
    rw [hsamples] at hs
    obtain ⟨b1, b2, b3, b4, b5⟩ := h3 s hs
    have e : EDGE_PADDING = (2/25 : ℚ) := by norm_num [EDGE_PADDING]
    have e2 : 1 - EDGE_PADDING = (23/25 : ℚ) := by norm_num [EDGE_PADDING]
    exact ⟨e ▸ b1, e2 ▸ b2, e ▸ b3, e2 ▸ b4, b5⟩
  · intro st2 hlights hsel2 hi
    have hsamples2 : (randomizeSamples rand st2).samples
        = buildSamples rand d
            (st.lights.filter fun l => st.selectedLights.contains l.entity_id) [] 0 := by
      simp only [randomizeSamples, hi.trans himg]
      rw [hlights, hsel2, if_neg hlen]
    rw [hsamples2, hsamples]

/-- Witness for C5 at the concrete state `demoStateWithImage` with the
constant stream 1/2. -/
theorem c5_randomize_success_witness :
    ((∀ i : ℕ, 0 ≤ (fun _ : ℕ => (1/2 : ℚ)) i ∧ (fun _ : ℕ => (1/2 : ℚ)) i < 1) ∧
     demoStateWithImage.imageData = some twoByTwo ∧
     (demoStateWithImage.lights.filter
        fun l => demoStateWithImage.selectedLights.contains l.entity_id) ≠ []) ∧
    ((randomizeSamples (fun _ => 1/2) demoStateWithImage).samples.length
        = (demoStateWithImage.lights.filter
            fun l => demoStateWithImage.selectedLights.contains l.entity_id).length ∧
     ((randomizeSamples (fun _ => 1/2) demoStateWithImage).samples.map fun s => s.id)
        = ((demoStateWithImage.lights.filter
            fun l => demoStateWithImage.selectedLights.contains l.entity_id).map
              fun l => l.entity_id) ∧
     ((randomizeSamples (fun _ => 1/2) demoStateWithImage).samples.map
          fun s => s.lightName)
        = ((demoStateWithImage.lights.filter
            fun l => demoStateWithImage.selectedLights.contains l.entity_id).map
              fun l => l.name) ∧
     (∀ s ∈ (randomizeSamples (fun _ => 1/2) demoStateWithImage).samples,
        (2/25 : ℚ) ≤ s.x ∧ s.x ≤ 23/25 ∧ (2/25 : ℚ) ≤ s.y ∧ s.y ≤ 23/25 ∧
        (s.r, s.g, s.b) = getColorAt (some twoByTwo) s.x s.y) ∧
     (∀ st2 : AppState, st2.lights = demoStateWithImage.lights →
        st2.selectedLights = demoStateWithImage.selectedLights →
        st2.imageData = demoStateWithImage.imageData →
        (randomizeSamples (fun _ => 1/2) st2).samples
          = (randomizeSamples (fun _ => 1/2) demoStateWithImage).samples)) :=
  ⟨⟨fun _ => ⟨by norm_num, by norm_num⟩, rfl,
    by simp [demoStateWithImage, demoLight]⟩,
   c5_randomize_success (fun _ => 1/2) demoStateWithImage twoByTwo
     (fun _ => ⟨by norm_num, by norm_num⟩) rfl
     (by simp [demoStateWithImage, demoLight])⟩

theorem sceneStep_foldl_not_mem (br : ℚ) :
    ∀ (l : List SamplePoint) (acc : String → Option SceneEntity) (k : String),
      (∀ s ∈ l, s.id ≠ k) → (l.foldl (sceneStep br) acc) k = acc k := by
  intro l
  induction l with
  | nil => intro acc k _; rfl
  | cons s rest ih =>
    intro acc k h
    rw [List.foldl_cons, ih _ k (fun s' hs' => h s' (List.mem_cons_of_mem _ hs'))]
    simp only [sceneStep]
    rw [if_neg (fun he => (h s (List.mem_cons_self _ _)) he.symm)]

theorem sceneStep_foldl_mem (br : ℚ) :
    ∀ (l : List SamplePoint) (acc : String → Option SceneEntity) (k : String),
      k ∈ (l.map fun s => s.id) →
      ∃ s' ∈ l, s'.id = k ∧
        (l.foldl (sceneStep br) acc) k
          = some { state := "on",
                   rgb_color := normalizeColor (s'.r : ℚ) (s'.g : ℚ) (s'.b : ℚ),
                   brightness := br } := by
  intro l
  induction l with
  | nil => intro acc k h; simp at h
  | cons s rest ih =>
    intro acc k h
    rw [List.foldl_cons]
    by_cases hk : k ∈ (rest.map fun s => s.id)
    · obtain ⟨s', hs', he, heq⟩ := ih (sceneStep br acc s) k hk
      exact ⟨s', List.mem_cons_of_mem _ hs', he, heq⟩
    · have hsplit : k = s.id ∨ k ∈ (rest.map fun s => s.id) := by
        rw [List.map_cons] at h
        exact List.mem_cons.mp h
      have hks : k = s.id := hsplit.resolve_right hk
      refine ⟨s, List.mem_cons_self _ _, hks.symm, ?_⟩
      rw [sceneStep_foldl_not_mem br rest (sceneStep br acc s) k
        (fun s' hs' he => hk (he ▸ List.mem_map_of_mem (fun s => s.id) hs'))]
      simp only [sceneStep]
      rw [if_pos hks]

/-- C7: for every sample list and brightness, the scene payload maps
each present light identifier to an entry `{state := "on",
rgb_color := normalizeColor raw, brightness := shared}` (with distinct
ids, exactly the point's own raw color), maps absent identifiers to
nothing, and maps the empty list to the empty mapping; the builder is
a pure function of its inputs. -/
theorem c7_scene_payload (samples : List SamplePoint) (brightness : ℚ) :
    (∀ k : String, createSceneEntities [] brightness k = none) ∧
    (∀ k : String, (∀ s ∈ samples, s.id ≠ k) →
      createSceneEntities samples brightness k = none) ∧
    (∀ s ∈ samples, ∃ s' ∈ samples, s'.id = s.id ∧
      createSceneEntities samples brightness s.id
        = some { state := "on",
                 rgb_color := normalizeColor (s'.r : ℚ) (s'.g : ℚ) (s'.b : ℚ),
                 brightness := brightness }) ∧
    ((samples.map fun s => s.id).Nodup →
      ∀ s ∈ samples, createSceneEntities samples brightness s.id
        = some { state := "on",
                 rgb_color := normalizeColor (s.r : ℚ) (s.g : ℚ) (s.b : ℚ),
                 brightness := brightness }) := by
  refine ⟨fun k => rfl, ?_, ?_, ?_⟩
  · intro k h
    exact sceneStep_foldl_not_mem brightness samples _ k h
  · intro s hs
    exact sceneStep_foldl_mem brightness samples (fun _ => none) s.id
      (List.mem_map_of_mem (fun s => s.id) hs)
  · intro hnd s hs
    obtain ⟨s', hs', he, heq⟩ :=
      sceneStep_foldl_mem brightness samples (fun _ => none) s.id
        (List.mem_map_of_mem (fun s => s.id) hs)
    have hss : s' = s := List.inj_on_of_nodup_map hnd hs' hs he
    simp only [createSceneEntities]
    rw [heq, hss]

/-- Witness for C7 at a concrete two-point sample list. -/
theorem c7_scene_payload_witness :
    (∀ k : String, createSceneEntities [] 128 k = none) ∧
    ((∀ s ∈ [demoPointA, demoPointB], s.id ≠ "light.c") →
      createSceneEntities [demoPointA, demoPointB] 128 "light.c" = none) ∧
    (demoPointA ∈ [demoPointA, demoPointB] →
      ∃ s' ∈ [demoPointA, demoPointB], s'.id = demoPointA.id ∧
        createSceneEntities [demoPointA, demoPointB] 128 demoPointA.id
          = some { state := "on",
                   rgb_color := normalizeColor (s'.r : ℚ) (s'.g : ℚ) (s'.b : ℚ),
                   brightness := 128 }) ∧
    (∀ s ∈ [demoPointA, demoPointB], s.id ≠ "light.c") ∧
    demoPointA ∈ [demoPointA, demoPointB] :=
  ⟨(c7_scene_payload [demoPointA, demoPointB] 128).1,
   fun h => (c7_scene_payload [demoPointA, demoPointB] 128).2.1 "light.c" h,
   fun h => (c7_scene_payload [demoPointA, demoPointB] 128).2.2.1 demoPointA h,
   by simp [demoPointA, demoPointB],
   by simp⟩

theorem map_update_id (dragId : String) (upd : SamplePoint → SamplePoint) :
    ∀ (l : List SamplePoint), (∀ s ∈ l, s.id ≠ dragId) →
      (l.map fun s => if s.id = dragId then upd s else s) = l := by
  intro l
  induction l with
  | nil => intro _; rfl
  | cons a t iht =>
    intro hl
    simp only [List.map_cons]
    rw [if_neg (hl a (List.mem_cons_self _ _)),
      iht (fun s hs => hl s (List.mem_cons_of_mem _ hs))]

/-- C8: repositioning clamps each axis independently to [0,1] and
updates the coordinate and re-sampled raw color of exactly the sample
points whose id matches the dragged id, preserving their id and light
display name; every other point is unchanged; when no point matches
(or nothing is being dragged) the sample list is unchanged. -/
theorem c8_reposition (dragId : String) (rect : Rect) (cx cy : ℚ)
    (buf : Option ImageData) (samples : List SamplePoint) :
    (0 ≤ max 0 (min 1 ((cx - rect.left) / rect.width)) ∧
     max 0 (min 1 ((cx - rect.left) / rect.width)) ≤ 1 ∧
     0 ≤ max 0 (min 1 ((cy - rect.top) / rect.height)) ∧
     max 0 (min 1 ((cy - rect.top) / rect.height)) ≤ 1) ∧
    (handleMouseMove (some dragId) (some rect) cx cy buf samples).length
        = samples.length ∧
    (∀ (i : ℕ) (s : SamplePoint), samples[i]? = some s → s.id ≠ dragId →
      (handleMouseMove (some dragId) (some rect) cx cy buf samples)[i]? = some s) ∧
    (∀ (i : ℕ) (s : SamplePoint), samples[i]? = some s → s.id = dragId →
      (handleMouseMove (some dragId) (some rect) cx cy buf samples)[i]?
        = some { id := s.id,
                 x := max 0 (min 1 ((cx - rect.left) / rect.width)),
                 y := max 0 (min 1 ((cy - rect.top) / rect.height)),
                 r := (getColorAt buf (max 0 (min 1 ((cx - rect.left) / rect.width)))
                        (max 0 (min 1 ((cy - rect.top) / rect.height)))).1,
                 g := (getColorAt buf (max 0 (min 1 ((cx - rect.left) / rect.width)))
                        (max 0 (min 1 ((cy - rect.top) / rect.height)))).2.1,
                 b := (getColorAt buf (max 0 (min 1 ((cx - rect.left) / rect.width)))
                        (max 0 (min 1 ((cy - rect.top) / rect.height)))).2.2,
                 lightName := s.lightName }) ∧
    ((∀ s ∈ samples, s.id ≠ dragId) →
      handleMouseMove (some dragId) (some rect) cx cy buf samples = samples) ∧
    handleMouseMove none (some rect) cx cy buf samples = samples := by
  refine ⟨⟨le_max_left _ _, max_le (by norm_num) (min_le_left _ _),
    le_max_left _ _, max_le (by norm_num) (min_le_left _ _)⟩, ?_, ?_, ?_, ?_, rfl⟩
  · simp only [handleMouseMove]
    exact List.length_map _ _
  · intro i s hget hne
    simp only [handleMouseMove]
    rw [List.getElem?_map, hget, Option.map_some']
    rw [if_neg hne]
  · intro i s hget heq
    simp only [handleMouseMove]
    rw [List.getElem?_map, hget, Option.map_some']
    rw [if_pos heq]
  · intro h
    simp only [handleMouseMove]
    exact map_update_id dragId _ samples h

/-- Witness for C8 on a concrete two-point list, dragging `light.b`
to the center of a 100×100 frame. -/
theorem c8_reposition_witness :
    ([demoPointA, demoPointB][0]? = some demoPointA ∧
     demoPointA.id ≠ "light.b" ∧
     (handleMouseMove (some "light.b") (some { left := 0, top := 0, width := 100, height := 100 })
        50 50 none [demoPointA, demoPointB])[0]? = some demoPointA) ∧
    ([demoPointA, demoPointB][1]? = some demoPointB ∧
     demoPointB.id = "light.b" ∧
     (handleMouseMove (some "light.b") (some { left := 0, top := 0, width := 100, height := 100 })
        50 50 none [demoPointA, demoPointB])[1]?
       = some { id := demoPointB.id,
                x := max 0 (min 1 ((50 - (0:ℚ)) / 100)),
                y := max 0 (min 1 ((50 - (0:ℚ)) / 100)),
                r := (getColorAt none (max 0 (min 1 ((50 - (0:ℚ)) / 100)))
                       (max 0 (min 1 ((50 - (0:ℚ)) / 100)))).1,
                g := (getColorAt none (max 0 (min 1 ((50 - (0:ℚ)) / 100)))
                       (max 0 (min 1 ((50 - (0:ℚ)) / 100)))).2.1,
                b := (getColorAt none (max 0 (min 1 ((50 - (0:ℚ)) / 100)))
                       (max 0 (min 1 ((50 - (0:ℚ)) / 100)))).2.2,
                lightName := demoPointB.lightName }) :=
  ⟨⟨rfl, by simp [demoPointA],
    (c8_reposition "light.b" { left := 0, top := 0, width := 100, height := 100 }
      50 50 none [demoPointA, demoPointB]).2.2.1 0 demoPointA rfl
      (by simp [demoPointA])⟩,
   ⟨rfl, rfl,
    (c8_reposition "light.b" { left := 0, top := 0, width := 100, height := 100 }
      50 50 none [demoPointA, demoPointB]).2.2.2.1 1 demoPointB rfl rfl⟩⟩
